import Mathlib

/-!
Verification of the AG-UI event-generation mechanism of the autoweave-ui
repository (class UIAgent in src/agui/ui-agent.js): the event template
registry, the variable-substitution engine built on the JavaScript regex
replace with pattern open-brace open-brace word-chars close-brace
close-brace, the per-connection session tracker, and the specialized
display flows.  JavaScript values are modelled by the inductive `Val`
(JSON-representable values: the code only ever stores strings, numbers,
booleans, null, arrays and plain objects in templates, vars and
events).  Machine state (template registry, active sessions, UI states)
is threaded explicitly through each operation.
-/

/-- Open-brace character, written by code so that no brace appears in a
character literal. -/
def obr : Char := '\x7b'

/-- Close-brace character. -/
def cbr : Char := '\x7d'

mutual
/-- JSON-representable JavaScript value.  Objects keep their fields in
insertion order, as JavaScript objects do for string keys. -/
inductive Val where
  | str (s : String) : Val
  | num (n : Int) : Val
  | bool (b : Bool) : Val
  | null : Val
  | arr (elems : VList) : Val
  | obj (fields : VFields) : Val
  deriving DecidableEq, Repr

/-- Ordered field list of a JavaScript object. -/
inductive VFields where
  | fnil : VFields
  | fcons (key : String) (value : Val) (rest : VFields) : VFields
  deriving DecidableEq, Repr

/-- Element list of a JavaScript array. -/
inductive VList where
  | vnil : VList
  | vcons (head : Val) (tail : VList) : VList
  deriving DecidableEq, Repr
end

/-- Build a `VFields` from a Lean list (notation helper for literals). -/
def vf : List (String × Val) → VFields
  | [] => .fnil
  | (k, v) :: rest => .fcons k v (vf rest)

/-- Build a `VList` from a Lean list (notation helper for literals). -/
def vl : List Val → VList
  | [] => .vnil
  | v :: rest => .vcons v (vl rest)

/-- Property read `o[k]` on an object's field list: first binding wins
(JavaScript objects have unique keys).  `none` models `undefined`. -/
def fget : VFields → String → Option Val
  | .fnil, _ => none
  | .fcons k1 v1 rest, k => if k1 = k then some v1 else fget rest k

/-- Property write `o[k] = v`: overwrites the binding in place when the
key exists, otherwise appends it (JavaScript property-assignment order). -/
def fset : VFields → String → Val → VFields
  | .fnil, k, v => .fcons k v .fnil
  | .fcons k1 v1 rest, k, v =>
      if k1 = k then .fcons k1 v rest else .fcons k1 v1 (fset rest k v)

/-- Keys of an object's field list, in order. -/
def fkeys : VFields → List String
  | .fnil => []
  | .fcons k _ rest => k :: fkeys rest

/-- Remove every binding of key `k`. -/
def fremove : VFields → String → VFields
  | .fnil, _ => .fnil
  | .fcons k1 v1 rest, k =>
      if k1 = k then fremove rest k else .fcons k1 v1 (fremove rest k)

/-- Object-spread merge: spreading `extra` over `base` one binding at a
time, later bindings overwriting earlier ones.  This is the meaning of a
JavaScript spread of two objects into a literal. -/
def spread (base : VFields) : VFields → VFields
  | .fnil => base
  | .fcons k v rest => spread (fset base k v) rest

/-- Lookup in a JavaScript `Map` modelled as an association list. -/
def mget {α : Type} : List (String × α) → String → Option α
  | [], _ => none
  | (k1, v1) :: rest, k => if k1 = k then some v1 else mget rest k

/-- `Map.set`: update in place when the key exists (keeping insertion
order), otherwise append at the end. -/
def mset {α : Type} : List (String × α) → String → α → List (String × α)
  | [], k, v => [(k, v)]
  | (k1, v1) :: rest, k, v =>
      if k1 = k then (k1, v) :: rest else (k1, v1) :: mset rest k v

/-- Word character of the regex class backslash-w without the unicode
flag: ASCII letters, digits and underscore. -/
def isWordChar (c : Char) : Bool := c.isAlpha || c.isDigit || c == '_'

mutual
/-- JavaScript ToString coercion on our values, as applied by
`String.prototype.replace` to a non-string value returned from the
replacement callback: strings unchanged, numbers in decimal, booleans
as `true`/`false`, `null` as `"null"`, arrays joined by commas via
`Array.prototype.join` (where a null element renders empty), and plain
objects as `[object Object]`. -/
def jsToString : Val → String
  | .str s => s
  | .num n => toString n
  | .bool b => cond b "true" "false"
  | .null => "null"
  | .obj _ => "[object Object]"
  | .arr xs => joinElems xs
termination_by structural v => v

/-- Comma-join of array elements under ToString (`Array.prototype.join`),
with null elements rendered as the empty string. -/
def joinElems : VList → String
  | .vnil => ""
  | .vcons .null .vnil => ""
  | .vcons v .vnil => jsToString v
  | .vcons .null rest => "," ++ joinElems rest
  | .vcons v rest => jsToString v ++ "," ++ joinElems rest
termination_by structural xs => xs
end

/-- Replacement text for one regex match with captured name `name`:
`vars[name] !== undefined ? vars[name] : match` followed by the
ToString coercion `replace` applies, so a defined variable contributes its
coerced value and an undefined one leaves the matched text verbatim. -/
def substRep (vars : VFields) (name : String) : List Char :=
  match fget vars name with
  | some v => (jsToString v).data
  | none => obr :: obr :: name.data ++ [cbr, cbr]

/-- One left-to-right pass of
`str.replace(re, cb)` over the character list, where the regex is
open-brace open-brace word-chars close-brace close-brace (global flag).
A match at a position requires two open braces, then a nonempty maximal
run of word characters, then two close braces (the greedy word-char run
cannot backtrack into a close brace); on a match the replacement is
emitted and scanning resumes after the match, otherwise one character is
emitted and scanning advances by one.  The fuel argument is a structural
bound; callers pass the list length, which every step stays under. -/
def substAux (vars : VFields) : Nat → List Char → List Char
  | 0, cs => cs
  | _ + 1, [] => []
  | _ + 1, [c] => [c]
  | fuel + 1, c1 :: c2 :: rest =>
      if c1 = obr ∧ c2 = obr then
        let run := rest.takeWhile isWordChar
        let after := rest.drop run.length
        if run ≠ [] ∧ after.take 2 = [cbr, cbr] then
          substRep vars (String.mk run) ++
            substAux vars fuel (after.drop 2)
        else c1 :: substAux vars fuel (c2 :: rest)
      else c1 :: substAux vars fuel (c2 :: rest)

/-- The method `UIAgent.replaceStringVariables(str, variables)`
(src/agui/ui-agent.js lines 277-281): a global regex replace of each
placeholder whose name is made of word characters, substituting the
variable's value when defined and keeping the matched text otherwise. -/
def replaceStringVariables (str : String) (vars : VFields) : String :=
  String.mk (substAux vars str.data.length str.data)

/-- Token of the placeholder decomposition of a string: either a literal
character or a placeholder occurrence with its captured name. -/
inductive Tok where
  | lit (c : Char) : Tok
  | ph (name : String) : Tok
  deriving DecidableEq, Repr

/-- Characters a token stands for in the source string. -/
def renderTok : Tok → List Char
  | .lit c => [c]
  | .ph name => obr :: obr :: name.data ++ [cbr, cbr]

/-- Characters a token contributes to the substituted output. -/
def applyTok (vars : VFields) : Tok → List Char
  | .lit c => [c]
  | .ph name => substRep vars name

/-- Placeholder decomposition by the same scan as `substAux`. -/
def tokAux : Nat → List Char → List Tok
  | 0, cs => cs.map .lit
  | _ + 1, [] => []
  | _ + 1, [c] => [.lit c]
  | fuel + 1, c1 :: c2 :: rest =>
      if c1 = obr ∧ c2 = obr then
        let run := rest.takeWhile isWordChar
        let after := rest.drop run.length
        if run ≠ [] ∧ after.take 2 = [cbr, cbr] then
          .ph (String.mk run) :: tokAux fuel (after.drop 2)
        else .lit c1 :: tokAux fuel (c2 :: rest)
      else .lit c1 :: tokAux fuel (c2 :: rest)

/-- Placeholder decomposition of a string. -/
def tokenizeStr (s : String) : List Tok := tokAux s.data.length s.data

example : tokenizeStr "hi \x7b\x7bname\x7d\x7d!" =
    [.lit 'h', .lit 'i', .lit ' ', .ph "name", .lit '!'] := by decide

example : replaceStringVariables "hi \x7b\x7bname\x7d\x7d!"
    (vf [("name", .str "Ann")]) = "hi Ann!" := by decide

example : replaceStringVariables "hi \x7b\x7bname\x7d\x7d!" .fnil =
    "hi \x7b\x7bname\x7d\x7d!" := by decide

example : replaceStringVariables "a \x7b\x7bx-y\x7d\x7d b"
    (vf [("x-y", .str "v")]) = "a \x7b\x7bx-y\x7d\x7d b" := by decide

example : replaceStringVariables "\x7b\x7bd\x7d\x7d"
    (vf [("d", .arr (vl [.obj .fnil, .num 2]))]) = "[object Object],2" := by
  decide

/-- Adjacent pair of open braces somewhere in the character list (the
only shape that can start a regex match). -/
def hasObrPair : List Char → Bool
  | [] => false
  | [_] => false
  | c1 :: rest2@(c2 :: _) => (c1 == obr && c2 == obr) || hasObrPair rest2

mutual
/-- Per-property step of the recursive walk of
`UIAgent.replaceVariables(obj, variables)` (lines 265-275): a string
value goes through `replaceStringVariables`; an object or array value
(both satisfy the JavaScript test `typeof v === 'object' && v !== null`)
is walked recursively by a for-in loop over its enumerable keys (for an
array: its indices); any other value is left as is. -/
def replaceValue : Val → VFields → Val
  | .str s, vars => .str (replaceStringVariables s vars)
  | .obj fs, vars => .obj (replaceInFields fs vars)
  | .arr xs, vars => .arr (replaceInElems xs vars)
  | v, _ => v
termination_by structural v => v

/-- For-in walk over an object's fields. -/
def replaceInFields : VFields → VFields → VFields
  | .fnil, _ => .fnil
  | .fcons k v rest, vars =>
      .fcons k (replaceValue v vars) (replaceInFields rest vars)
termination_by structural fs => fs

/-- For-in walk over an array's indices. -/
def replaceInElems : VList → VFields → VList
  | .vnil, _ => .vnil
  | .vcons v rest, vars =>
      .vcons (replaceValue v vars) (replaceInElems rest vars)
termination_by structural xs => xs
end

/-- The method `UIAgent.replaceVariables(obj, variables)` applied to the
root: the for-in loop mutates the values inside a container, so a root
that is an object or an array is walked, while a primitive root has no
enumerable own properties to rewrite and is returned unchanged. -/
def replaceVariables (o : Val) (vars : VFields) : Val :=
  match o with
  | .obj fs => .obj (replaceInFields fs vars)
  | .arr xs => .arr (replaceInElems xs vars)
  | v => v

mutual
/-- Structural deep copy, the meaning of
`JSON.parse(JSON.stringify(template))` on JSON-representable values. -/
def jsonClone : Val → Val
  | .str s => .str s
  | .num n => .num n
  | .bool b => .bool b
  | .null => .null
  | .obj fs => .obj (jsonCloneFields fs)
  | .arr xs => .arr (jsonCloneElems xs)
termination_by structural v => v

/-- Deep copy of object fields. -/
def jsonCloneFields : VFields → VFields
  | .fnil => .fnil
  | .fcons k v rest => .fcons k (jsonClone v) (jsonCloneFields rest)
termination_by structural fs => fs

/-- Deep copy of array elements. -/
def jsonCloneElems : VList → VList
  | .vnil => .vnil
  | .vcons v rest => .vcons (jsonClone v) (jsonCloneElems rest)
termination_by structural xs => xs
end

/-- The method `UIAgent.processTemplate(template, variables)` (lines
255-263): deep-clone the template via a JSON round trip, then substitute
variables in place in the clone. -/
def processTemplate (template : Val) (vars : VFields) : Val :=
  replaceVariables (jsonClone template) vars

mutual
/-- Uniform rewrite of every string leaf of a value (specification-side
companion used to compare the source's walk with a walk that treats
object fields and array elements alike). -/
def mapStrings (f : String → String) : Val → Val
  | .str s => .str (f s)
  | .obj fs => .obj (mapStringsFields f fs)
  | .arr xs => .arr (mapStringsElems f xs)
  | v => v
termination_by structural v => v

/-- String-leaf rewrite under object fields. -/
def mapStringsFields (f : String → String) : VFields → VFields
  | .fnil => .fnil
  | .fcons k v rest => .fcons k (mapStrings f v) (mapStringsFields f rest)
termination_by structural fs => fs

/-- String-leaf rewrite under array elements. -/
def mapStringsElems (f : String → String) : VList → VList
  | .vnil => .vnil
  | .vcons v rest => .vcons (mapStrings f v) (mapStringsElems f rest)
termination_by structural xs => xs
end

/-- The built-in event templates seeded by
`UIAgent.initializeEventTemplates()` (lines 34-201), keyed by template
id in insertion order; every entry is the full registry value, an object
with a `type` tag and a `template` body whose string leaves carry the
placeholder markers. -/
def initTemplates : List (String × Val) :=
  [ ("chat-welcome", .obj (vf
      [ ("type", .str "chat")
      , ("template", .obj (vf
          [ ("text", .str "Welcome to \x7b\x7bagent_name\x7d\x7d! I'm ready to help you with \x7b\x7bcapabilities\x7d\x7d.")
          , ("sender", .str "\x7b\x7bagent_name\x7d\x7d")
          , ("timestamp", .str "\x7b\x7btimestamp\x7d\x7d")
          , ("metadata", .obj (vf
              [ ("event_type", .str "welcome")
              , ("session_id", .str "\x7b\x7bsession_id\x7d\x7d") ])) ])) ]))
  , ("chat-response", .obj (vf
      [ ("type", .str "chat")
      , ("template", .obj (vf
          [ ("text", .str "\x7b\x7bmessage\x7d\x7d")
          , ("sender", .str "\x7b\x7bagent_name\x7d\x7d")
          , ("timestamp", .str "\x7b\x7btimestamp\x7d\x7d")
          , ("metadata", .obj (vf
              [ ("event_type", .str "response")
              , ("session_id", .str "\x7b\x7bsession_id\x7d\x7d")
              , ("tokens", .str "\x7b\x7btokens\x7d\x7d") ])) ])) ]))
  , ("chat-error", .obj (vf
      [ ("type", .str "chat")
      , ("template", .obj (vf
          [ ("text", .str "âŒ \x7b\x7berror_message\x7d\x7d")
          , ("sender", .str "\x7b\x7bagent_name\x7d\x7d")
          , ("timestamp", .str "\x7b\x7btimestamp\x7d\x7d")
          , ("error", .bool true)
          , ("metadata", .obj (vf
              [ ("event_type", .str "error")
              , ("session_id", .str "\x7b\x7bsession_id\x7d\x7d") ])) ])) ]))
  , ("display-agent-list", .obj (vf
      [ ("type", .str "display")
      , ("template", .obj (vf
          [ ("type", .str "table")
          , ("title", .str "Active Agents")
          , ("columns", .arr (vl
              [ .str "id", .str "name", .str "status", .str "created_at" ]))
          , ("data", .str "\x7b\x7bagents_data\x7d\x7d")
          , ("timestamp", .str "\x7b\x7btimestamp\x7d\x7d")
          , ("metadata", .obj (vf
              [ ("event_type", .str "agent_list")
              , ("total_agents", .str "\x7b\x7btotal_agents\x7d\x7d") ])) ])) ]))
  , ("display-metrics", .obj (vf
      [ ("type", .str "display")
      , ("template", .obj (vf
          [ ("type", .str "metrics")
          , ("title", .str "System Metrics")
          , ("data", .str "\x7b\x7bmetrics_data\x7d\x7d")
          , ("timestamp", .str "\x7b\x7btimestamp\x7d\x7d")
          , ("metadata", .obj (vf
              [ ("event_type", .str "metrics")
              , ("refresh_rate", .str "\x7b\x7brefresh_rate\x7d\x7d") ])) ])) ]))
  , ("display-form", .obj (vf
      [ ("type", .str "display")
      , ("template", .obj (vf
          [ ("type", .str "form")
          , ("title", .str "\x7b\x7bform_title\x7d\x7d")
          , ("description", .str "\x7b\x7bform_description\x7d\x7d")
          , ("schema", .str "\x7b\x7bform_schema\x7d\x7d")
          , ("action", .str "\x7b\x7bform_action\x7d\x7d")
          , ("timestamp", .str "\x7b\x7btimestamp\x7d\x7d")
          , ("metadata", .obj (vf
              [ ("event_type", .str "form")
              , ("form_id", .str "\x7b\x7bform_id\x7d\x7d") ])) ])) ]))
  , ("display-success", .obj (vf
      [ ("type", .str "display")
      , ("template", .obj (vf
          [ ("type", .str "success")
          , ("title", .str "âœ… \x7b\x7bsuccess_title\x7d\x7d")
          , ("message", .str "\x7b\x7bsuccess_message\x7d\x7d")
          , ("data", .str "\x7b\x7bsuccess_data\x7d\x7d")
          , ("timestamp", .str "\x7b\x7btimestamp\x7d\x7d")
          , ("metadata", .obj (vf
              [ ("event_type", .str "success")
              , ("operation", .str "\x7b\x7boperation\x7d\x7d") ])) ])) ]))
  , ("display-error", .obj (vf
      [ ("type", .str "display")
      , ("template", .obj (vf
          [ ("type", .str "error")
          , ("title", .str "âŒ \x7b\x7berror_title\x7d\x7d")
          , ("message", .str "\x7b\x7berror_message\x7d\x7d")
          , ("details", .str "\x7b\x7berror_details\x7d\x7d")
          , ("timestamp", .str "\x7b\x7btimestamp\x7d\x7d")
          , ("metadata", .obj (vf
              [ ("event_type", .str "error")
              , ("error_code", .str "\x7b\x7berror_code\x7d\x7d") ])) ])) ]))
  , ("input-text", .obj (vf
      [ ("type", .str "input")
      , ("template", .obj (vf
          [ ("input_type", .str "text")
          , ("label", .str "\x7b\x7blabel\x7d\x7d")
          , ("placeholder", .str "\x7b\x7bplaceholder\x7d\x7d")
          , ("required", .str "\x7b\x7brequired\x7d\x7d")
          , ("validation", .str "\x7b\x7bvalidation\x7d\x7d")
          , ("timestamp", .str "\x7b\x7btimestamp\x7d\x7d")
          , ("metadata", .obj (vf
              [ ("event_type", .str "input_request")
              , ("input_id", .str "\x7b\x7binput_id\x7d\x7d") ])) ])) ]))
  , ("input-choice", .obj (vf
      [ ("type", .str "input")
      , ("template", .obj (vf
          [ ("input_type", .str "choice")
          , ("label", .str "\x7b\x7blabel\x7d\x7d")
          , ("options", .str "\x7b\x7boptions\x7d\x7d")
          , ("multiple", .str "\x7b\x7bmultiple\x7d\x7d")
          , ("timestamp", .str "\x7b\x7btimestamp\x7d\x7d")
          , ("metadata", .obj (vf
              [ ("event_type", .str "input_request")
              , ("input_id", .str "\x7b\x7binput_id\x7d\x7d") ])) ])) ]))
  , ("status-update", .obj (vf
      [ ("type", .str "status")
      , ("template", .obj (vf
          [ ("status", .str "\x7b\x7bstatus\x7d\x7d")
          , ("message", .str "\x7b\x7bmessage\x7d\x7d")
          , ("progress", .str "\x7b\x7bprogress\x7d\x7d")
          , ("timestamp", .str "\x7b\x7btimestamp\x7d\x7d")
          , ("metadata", .obj (vf
              [ ("event_type", .str "status_update")
              , ("operation_id", .str "\x7b\x7boperation_id\x7d\x7d") ])) ])) ])) ]

/-- A per-connection session record (`activeSessions` map values,
lines 445-450). -/
structure SessionRecord where
  session_id : String
  created_at : String
  last_activity : String
  deriving DecidableEq, Repr

/-- The mutable state of a `UIAgent` instance: the template registry,
the active-session map and the per-connection UI-state map. -/
structure AgentState where
  eventTemplates : List (String × Val)
  activeSessions : List (String × SessionRecord)
  uiStates : List (String × List (String × Val))
  deriving DecidableEq, Repr

/-- State of a freshly constructed `UIAgent` (constructor, lines 9-23):
built-in templates seeded, no sessions, no UI state. -/
def initState : AgentState :=
  { eventTemplates := initTemplates, activeSessions := [], uiStates := [] }

/-- The method `UIAgent.getSessionId(clientId)` (lines 440-457),
parameterized by the current clock reading (`nowIso` for
`new Date().toISOString()`, `nowMs` for `Date.now()`).  The guard
`if (!clientId)` is a JavaScript falsiness check: an absent client id
(`null`/`undefined`, modelled by `none`) and the empty string both take
the first branch and get a one-off id that is not persisted.  For a
truthy (non-empty) client id it returns the stored record's id, creating
the record on a miss, and in both cases rewrites the record's
`last_activity` field. -/
def getSessionId (st : AgentState) (clientId : Option String)
    (nowIso : String) (nowMs : Nat) : String × AgentState :=
  match clientId with
  | none => ("session-" ++ toString nowMs, st)
  | some cid =>
      if cid = "" then ("session-" ++ toString nowMs, st)
      else
        let r0 : SessionRecord :=
          match mget st.activeSessions cid with
          | some r => r
          | none =>
              { session_id := "session-" ++ cid ++ "-" ++ toString nowMs
              , created_at := nowIso
              , last_activity := nowIso }
        let r1 : SessionRecord := { r0 with last_activity := nowIso }
        (r0.session_id, { st with activeSessions := mset st.activeSessions cid r1 })

/-- The default variables computed by `UIAgent.generateEvent`
(lines 233-237). -/
def defaultVariables (nowIso sid : String) : VFields :=
  vf [ ("timestamp", .str nowIso)
     , ("agent_name", .str "AutoWeave")
     , ("session_id", .str sid) ]

/-- The `agui_metadata` object stamped on every generated event
(lines 245-250). -/
def aguiMetadata (templateId : String) (nowIso : String)
    (clientId : Option String) : Val :=
  .obj (vf
    [ ("generated_by", .str "ui-agent")
    , ("template_id", .str templateId)
    , ("generated_at", .str nowIso)
    , ("client_id", match clientId with | some c => .str c | none => .null) ])

/-- Property assignment `o.k = v` on a value: on an object it sets the
field; on a primitive it is a silent no-op (the source runs in sloppy
mode, and the processed template is an object for every template the
code registers). -/
def assignField (o : Val) (k : String) (v : Val) : Val :=
  match o with
  | .obj fs => .obj (fset fs k v)
  | other => other

/-- The method `UIAgent.generateEvent(templateId, variables, clientId)`
(lines 226-253).  The result pairs the outcome (`Except.error` models a
thrown `Error`) with the post-state; the template lookup happens before
any state change, so a missing template aborts with the state intact.
Both `new Date()` readings inside one call are modelled by the single
`nowIso`/`nowMs` tick. -/
def generateEvent (st : AgentState) (templateId : String) (vars : VFields)
    (clientId : Option String) (nowIso : String) (nowMs : Nat) :
    Except String Val × AgentState :=
  match mget st.eventTemplates templateId with
  | none => (.error ("Template '" ++ templateId ++ "' not found"), st)
  | some template =>
      let sidSt := getSessionId st clientId nowIso nowMs
      let mergedVariables := spread (defaultVariables nowIso sidSt.1) vars
      let event := processTemplate template mergedVariables
      ( .ok (assignField event "agui_metadata"
              (aguiMetadata templateId nowIso clientId))
      , sidSt.2 )

/-- `UIAgent.generateDisplayEvent` (lines 214-216) delegates to
`generateEvent`. -/
def generateDisplayEvent (st : AgentState) (templateId : String)
    (vars : VFields) (clientId : Option String) (nowIso : String)
    (nowMs : Nat) : Except String Val × AgentState :=
  generateEvent st templateId vars clientId nowIso nowMs

/-- `UIAgent.addCustomTemplate(templateId, template)` (lines 483-486). -/
def addCustomTemplate (st : AgentState) (templateId : String)
    (template : Val) : AgentState :=
  { st with eventTemplates := mset st.eventTemplates templateId template }

/-- Field read on an event value (inspection helper for statements). -/
def vget (o : Val) (k : String) : Option Val :=
  match o with
  | .obj fs => fget fs k
  | _ => none

/-- Member access `o.f` as the specialized flows use it on a provider
result: `undefined` (`none`) for a missing property or a primitive
receiver, and a thrown TypeError for a null receiver. -/
def jsMember (o : Val) (f : String) : Except String (Option Val) :=
  match o with
  | .null => .error ("Cannot read properties of null (reading '" ++ f ++ "')")
  | .obj fs => .ok (fget fs f)
  | _ => .ok none

/-- JavaScript truthiness of a value. -/
def truthy : Val → Bool
  | .null => false
  | .bool b => b
  | .num n => decide (n ≠ 0)
  | .str s => decide (s ≠ "")
  | .arr _ => true
  | .obj _ => true

/-- Length of a `VList`. -/
def vlLength : VList → Nat
  | .vnil => 0
  | .vcons _ rest => vlLength rest + 1

/-- The `.length` read used for `total_agents`: a number for arrays and
strings, the `length` property for objects, `undefined` otherwise. -/
def jsLength : Val → Option Val
  | .arr xs => some (.num (vlLength xs))
  | .str s => some (.num s.length)
  | .obj fs => fget fs "length"
  | _ => none

/-- The injected collaborator `autoweaveInstance` as the flows consume
it: a delivery sink that may be absent (`sendAGUIEvent` missing or the
instance itself null, line 460) and may reject, and the three upstream
providers, each modelled by its settled result for this invocation
(`Except.error` is a rejection carrying the error's `message`). -/
structure AutoweaveInstance where
  sendAGUIEvent : Option (Val → Option String → Except String Unit)
  getSystemHealth : Except String Val
  getMetrics : Except String Val
  listAgents : Except String Val

/-- The method `UIAgent.sendEvent(event, clientId)` (lines 459-466):
when a sink is available the delivery is awaited and any rejection
propagates (there is no try/catch here); when no sink is available a
warning is logged and the method returns normally. -/
def sendEvent (aw : AutoweaveInstance) (event : Val)
    (clientId : Option String) : Except String Unit :=
  match aw.sendAGUIEvent with
  | some f => f event clientId
  | none => .ok ()

/-- The method `UIAgent.generateSystemHealthDisplay(clientId)`
(lines 334-361).  The try block awaits both providers, generates a
`display-metrics` event and delivers it; any failure in the try block
(provider rejection, missing template, or delivery rejection) lands in
the catch block, which generates and delivers a `display-error` event;
a failure inside the catch block itself propagates. -/
def generateSystemHealthDisplay (st : AgentState) (aw : AutoweaveInstance)
    (clientId : Option String) (nowIso : String) (nowMs : Nat) :
    Except String Val × AgentState :=
  let tryRun : Except String Val × AgentState :=
    match aw.getSystemHealth with
    | .error e => (.error e, st)
    | .ok health =>
        match aw.getMetrics with
        | .error e => (.error e, st)
        | .ok metrics =>
            let r := generateDisplayEvent st "display-metrics"
              (vf [ ("metrics_data", .obj (vf
                      [ ("system_health", health)
                      , ("metrics", metrics) ]))
                  , ("refresh_rate", .str "30s") ]) clientId nowIso nowMs
            match r.1 with
            | .error e => (.error e, r.2)
            | .ok ev =>
                match sendEvent aw ev clientId with
                | .error e => (.error e, r.2)
                | .ok _ => (.ok ev, r.2)
  match tryRun with
  | (.ok ev, st1) => (.ok ev, st1)
  | (.error e, st1) =>
      let r := generateDisplayEvent st1 "display-error"
        (vf [ ("error_title", .str "Health Check Failed")
            , ("error_message", .str "Unable to retrieve system health")
            , ("error_details", .str e)
            , ("error_code", .str "HEALTH_CHECK_ERROR") ]) clientId nowIso nowMs
      match r.1 with
      | .error e2 => (.error e2, r.2)
      | .ok ev =>
          match sendEvent aw ev clientId with
          | .error e2 => (.error e2, r.2)
          | .ok _ => (.ok ev, r.2)

/-- The `agents_data` variable of the agent-list flow:
`agents.agents || []` (line 368). -/
def agentsDataOf (magents : Option Val) : Val :=
  match magents with
  | some v => if truthy v then v else .arr .vnil
  | none => .arr .vnil

/-- The `total_agents` variable of the agent-list flow:
`agents.agents ? agents.agents.length : 0` (line 369), as the bindings
it contributes to the variables object.  When the ternary takes the
truthy branch and `.length` is `undefined`, the key is present with an
undefined value in the source; a key bound to `undefined` and an absent
key are indistinguishable to the substitution (`!== undefined`) and to
the spread-merge here (no default shares this key), so that case
contributes no binding. -/
def totalAgentsBinding (magents : Option Val) : VFields :=
  match magents with
  | some v =>
      if truthy v then
        match jsLength v with
        | some lv => .fcons "total_agents" lv .fnil
        | none => .fnil
      else .fcons "total_agents" (.num 0) .fnil
  | none => .fcons "total_agents" (.num 0) .fnil

/-- The method `UIAgent.generateAgentListDisplay(clientId)`
(lines 363-386), with the same try/catch shape as the health flow. -/
def generateAgentListDisplay (st : AgentState) (aw : AutoweaveInstance)
    (clientId : Option String) (nowIso : String) (nowMs : Nat) :
    Except String Val × AgentState :=
  let tryRun : Except String Val × AgentState :=
    match aw.listAgents with
    | .error e => (.error e, st)
    | .ok agents =>
        match jsMember agents "agents" with
        | .error e => (.error e, st)
        | .ok magents =>
            let r := generateDisplayEvent st "display-agent-list"
              (.fcons "agents_data" (agentsDataOf magents)
                (totalAgentsBinding magents)) clientId nowIso nowMs
            match r.1 with
            | .error e => (.error e, r.2)
            | .ok ev =>
                match sendEvent aw ev clientId with
                | .error e => (.error e, r.2)
                | .ok _ => (.ok ev, r.2)
  match tryRun with
  | (.ok ev, st1) => (.ok ev, st1)
  | (.error e, st1) =>
      let r := generateDisplayEvent st1 "display-error"
        (vf [ ("error_title", .str "Agent List Failed")
            , ("error_message", .str "Unable to retrieve agent list")
            , ("error_details", .str e)
            , ("error_code", .str "AGENT_LIST_ERROR") ]) clientId nowIso nowMs
      match r.1 with
      | .error e2 => (.error e2, r.2)
      | .ok ev =>
          match sendEvent aw ev clientId with
          | .error e2 => (.error e2, r.2)
          | .ok _ => (.ok ev, r.2)

/-- Heap cell of the object-graph model used to state the deep-copy
isolation of `processTemplate`: containers hold addresses of their
children, so aliasing and in-place mutation are expressible. -/
inductive HVal where
  | hstr (s : String) : HVal
  | hnum (n : Int) : HVal
  | hbool (b : Bool) : HVal
  | hnull : HVal
  | hobj (fields : List (String × Nat)) : HVal
  | harr (elems : List Nat) : HVal
  deriving DecidableEq, Repr

/-- Heap: cells addressed by their index; allocation appends. -/
abbrev Heap : Type := List HVal

/-- Read object fields through a value reader (helper of `readValue`). -/
def readFieldsWith (r : Nat → Option Val) : List (String × Nat) → Option VFields
  | [] => some .fnil
  | (k, a) :: rest =>
      match r a, readFieldsWith r rest with
      | some v, some vs => some (.fcons k v vs)
      | _, _ => none

/-- Read array elements through a value reader (helper of `readValue`). -/
def readElemsWith (r : Nat → Option Val) : List Nat → Option VList
  | [] => some .vnil
  | a :: rest =>
      match r a, readElemsWith r rest with
      | some v, some vs => some (.vcons v vs)
      | _, _ => none

/-- Read the JSON value rooted at address `a`, following at most `fuel`
levels of pointers: the serialization half of the
`JSON.parse(JSON.stringify(template))` round trip of `processTemplate`
(line 257). -/
def readValue (h : Heap) : Nat → Nat → Option Val
  | 0, _ => none
  | fuel + 1, a =>
      match h[a]? with
      | some (.hstr s) => some (.str s)
      | some (.hnum n) => some (.num n)
      | some (.hbool b) => some (.bool b)
      | some .hnull => some .null
      | some (.hobj fs) => (readFieldsWith (readValue h fuel) fs).map .obj
      | some (.harr as) => (readElemsWith (readValue h fuel) as).map .arr
      | none => none

mutual
/-- Allocate a fresh object graph holding value `v`: the
deserialization half of the JSON round trip of `processTemplate`.  Every
cell of the copy is appended after the existing heap, so the copy shares
no address with any previously reachable structure. -/
def allocValue : Heap → Val → Heap × Nat
  | h, .str s => (h ++ [.hstr s], h.length)
  | h, .num n => (h ++ [.hnum n], h.length)
  | h, .bool b => (h ++ [.hbool b], h.length)
  | h, .null => (h ++ [.hnull], h.length)
  | h, .obj fs =>
      let p := allocFields h fs
      (p.1 ++ [.hobj p.2], p.1.length)
  | h, .arr xs =>
      let p := allocElems h xs
      (p.1 ++ [.harr p.2], p.1.length)
termination_by structural _h v => v

/-- Allocate the fields of an object left to right. -/
def allocFields : Heap → VFields → Heap × List (String × Nat)
  | h, .fnil => (h, [])
  | h, .fcons k v rest =>
      let p := allocValue h v
      let q := allocFields p.1 rest
      (q.1, (k, p.2) :: q.2)
termination_by structural _h fs => fs

/-- Allocate the elements of an array left to right. -/
def allocElems : Heap → VList → Heap × List Nat
  | h, .vnil => (h, [])
  | h, .vcons v rest =>
      let p := allocValue h v
      let q := allocElems p.1 rest
      (q.1, p.2 :: q.2)
termination_by structural _h xs => xs
end

mutual
/-- Pointer depth of a value's graph (the fuel `readValue` needs). -/
def vDepth : Val → Nat
  | .obj fs => fieldsDepth fs + 1
  | .arr xs => elemsDepth xs + 1
  | _ => 1
termination_by structural v => v

/-- Maximal depth over object fields. -/
def fieldsDepth : VFields → Nat
  | .fnil => 0
  | .fcons _ v rest => max (vDepth v) (fieldsDepth rest)
termination_by structural fs => fs

/-- Maximal depth over array elements. -/
def elemsDepth : VList → Nat
  | .vnil => 0
  | .vcons v rest => max (vDepth v) (elemsDepth rest)
termination_by structural xs => xs
end

/-- In-place mutations of heap cells, applied left to right: the model
of arbitrary later mutation of a returned event object. -/
def mutateAll (h : Heap) (us : List (Nat × HVal)) : Heap :=
  us.foldl (fun acc u => acc.set u.1 u.2) h

theorem mget_mset_ne {α : Type} (m : List (String × α)) (k k2 : String)
    (v : α) (hne : k ≠ k2) : mget (mset m k v) k2 = mget m k2 := by
  induction m with
  | nil => simp [mset, mget, hne, Ne.symm hne]
  | cons p rest ih =>
      by_cases hk : p.1 = k
      · simp [mset, mget, hk, hne, Ne.symm hne]
      · by_cases hk2 : p.1 = k2
        · simp [mset, mget, hk, hk2, Ne.symm hne]
        · simp [mset, mget, hk, hk2, ih]

theorem fget_fset_self : ∀ (fs : VFields) (k : String) (v : Val),
    fget (fset fs k v) k = some v
  | .fnil, k, v => by simp [fset, fget]
  | .fcons k1 v1 rest, k, v => by
      by_cases hk : k1 = k
      · simp [fset, fget, hk]
      · simp [fset, fget, hk, fget_fset_self rest k v]

theorem fget_fset_ne : ∀ (fs : VFields) (k k2 : String) (v : Val),
    k ≠ k2 → fget (fset fs k v) k2 = fget fs k2
  | .fnil, k, k2, v, hne => by simp [fset, fget, hne, Ne.symm hne]
  | .fcons k1 v1 rest, k, k2, v, hne => by
      by_cases hk : k1 = k
      · simp [fset, fget, hk, hne, Ne.symm hne]
      · by_cases hk2 : k1 = k2
        · simp [fset, fget, hk, hk2, Ne.symm hne]
        · simp [fset, fget, hk, hk2, fget_fset_ne rest k k2 v hne]

theorem fget_eq_none_of_not_mem : ∀ (fs : VFields) (k : String),
    k ∉ fkeys fs → fget fs k = none
  | .fnil, k, _ => by simp [fget]
  | .fcons k1 v1 rest, k, h => by
      simp [fkeys] at h
      have hne : ¬k1 = k := fun hh => h.1 hh.symm
      simp [fget, hne, fget_eq_none_of_not_mem rest k h.2]

theorem fget_spread : ∀ (extra base : VFields) (k : String),
    (fkeys extra).Nodup →
    fget (spread base extra) k =
      match fget extra k with
      | some v => some v
      | none => fget base k
  | .fnil, base, k, _ => by simp [spread, fget]
  | .fcons k1 v1 rest, base, k, hnd => by
      simp only [fkeys, List.nodup_cons] at hnd
      by_cases hk : k1 = k
      · subst hk
        have hno : fget rest k1 = none :=
          fget_eq_none_of_not_mem rest k1 hnd.1
        simp [spread, fget, fget_spread rest (fset base k1 v1) k1 hnd.2,
          hno, fget_fset_self]
      · simp [spread, fget, hk,
          fget_spread rest (fset base k1 v1) k hnd.2,
          fget_fset_ne base k1 k v1 hk]

/-- Claim C1: for every template id not present in the registry,
`generateEvent` fails with the template-not-found error, returns no
event, and leaves the session map and the UI-state map unchanged (in
particular no session record is created for the client by the failing
call). -/
theorem c1_missing_template_aborts_state_unchanged
    (st : AgentState) (templateId : String) (vars : VFields)
    (clientId : Option String) (nowIso : String) (nowMs : Nat)
    (h : mget st.eventTemplates templateId = none) :
    generateEvent st templateId vars clientId nowIso nowMs =
      (.error ("Template '" ++ templateId ++ "' not found"), st) ∧
    (generateEvent st templateId vars clientId nowIso nowMs).2.activeSessions
      = st.activeSessions ∧
    (generateEvent st templateId vars clientId nowIso nowMs).2.uiStates
      = st.uiStates := by
  simp [generateEvent, h]

/-- Witness for C1 at a concrete input: the freshly constructed agent
has no template named `nonexistent-template`, and the call aborts with
the thrown message and the untouched state. -/
theorem c1_missing_template_witness :
    mget initState.eventTemplates "nonexistent-template" = none ∧
    generateEvent initState "nonexistent-template" .fnil (some "client-1")
        "2024-01-01T00:00:00.000Z" 1704067200000 =
      (.error ("Template '" ++ "nonexistent-template" ++ "' not found"),
        initState) :=
  ⟨by decide,
   (c1_missing_template_aborts_state_unchanged initState
      "nonexistent-template" .fnil (some "client-1")
      "2024-01-01T00:00:00.000Z" 1704067200000 (by decide)).1⟩

theorem applyTok_lit_flatten (vars : VFields) :
    ∀ (cs : List Char),
      (List.map (applyTok vars ∘ Tok.lit) cs).flatten = cs
  | [] => rfl
  | c :: rest => by
      simp [applyTok, applyTok_lit_flatten vars rest]

theorem renderTok_lit_flatten :
    ∀ (cs : List Char), (List.map (renderTok ∘ Tok.lit) cs).flatten = cs
  | [] => rfl
  | c :: rest => by
      simp [renderTok, renderTok_lit_flatten rest]

/-- The source scan and the token decomposition agree: the output of the
regex replace is the concatenation of the per-token outputs. -/
theorem substAux_eq_tokAux (vars : VFields) :
    ∀ (fuel : Nat) (cs : List Char),
    substAux vars fuel cs = ((tokAux fuel cs).map (applyTok vars)).flatten := by
  intro fuel
  induction fuel with
  | zero =>
      intro cs
      simp only [substAux, tokAux, List.map_map]
      exact (applyTok_lit_flatten vars cs).symm
  | succ fuel ih =>
      intro cs
      match cs with
      | [] => simp [substAux, tokAux]
      | [c] => simp [substAux, tokAux, applyTok]
      | c1 :: c2 :: rest =>
          simp only [substAux, tokAux]
          split
          · split
            · simp [applyTok, ih]
            · simp [applyTok, ih]
          · simp [applyTok, ih]

theorem takeWhile_chars_all (p : Char → Bool) :
    ∀ (l : List Char), (l.takeWhile p).all p = true := by
  intro l
  rw [List.all_eq_true]
  intro c hc
  exact List.mem_takeWhile_imp hc

theorem takeWhile_append_drop (p : Char → Bool) (l : List Char) :
    l.takeWhile p ++ l.drop (l.takeWhile p).length = l := by
  have h : l.takeWhile p = l.take (l.takeWhile p).length :=
    List.prefix_iff_eq_take.mp (List.takeWhile_prefix p)
  conv_rhs => rw [← List.take_append_drop (l.takeWhile p).length l]
  rw [← h]

/-- Round trip: rendering the token decomposition recovers the source
characters, so the placeholder occurrences the tokens name are really
occurrences of the source string. -/
theorem tokAux_render :
    ∀ (fuel : Nat) (cs : List Char),
    ((tokAux fuel cs).map renderTok).flatten = cs := by
  intro fuel
  induction fuel with
  | zero =>
      intro cs
      simp only [tokAux, List.map_map]
      exact renderTok_lit_flatten cs
  | succ fuel ih =>
      intro cs
      match cs with
      | [] => simp [tokAux]
      | [c] => simp [tokAux, renderTok]
      | c1 :: c2 :: rest =>
          simp only [tokAux]
          split
          · rename_i hbr
            split
            · rename_i hcond
              simp only [List.map_cons, List.flatten_cons, renderTok]
              rw [ih]
              have hrest : rest.takeWhile isWordChar ++
                  rest.drop (rest.takeWhile isWordChar).length = rest :=
                takeWhile_append_drop isWordChar rest
              have hafter : rest.drop (rest.takeWhile isWordChar).length =
                  [cbr, cbr] ++
                    (rest.drop (rest.takeWhile isWordChar).length).drop 2 := by
                conv_lhs => rw [← List.take_append_drop 2
                  (rest.drop (rest.takeWhile isWordChar).length)]
                rw [hcond.2]
              rw [hbr.1, hbr.2]
              conv_rhs => rw [← hrest]
              conv_rhs => rw [hafter]
              simp
            · simp only [List.map_cons, List.flatten_cons, renderTok]
              rw [ih]
              simp
          · simp only [List.map_cons, List.flatten_cons, renderTok]
            rw [ih]
            simp

mutual
theorem jsonClone_id : ∀ (v : Val), jsonClone v = v
  | .str _ => rfl
  | .num _ => rfl
  | .bool _ => rfl
  | .null => rfl
  | .obj fs => by simp [jsonClone, jsonCloneFields_id fs]
  | .arr xs => by simp [jsonClone, jsonCloneElems_id xs]

theorem jsonCloneFields_id : ∀ (fs : VFields), jsonCloneFields fs = fs
  | .fnil => rfl
  | .fcons k v rest => by
      simp [jsonCloneFields, jsonClone_id v, jsonCloneFields_id rest]

theorem jsonCloneElems_id : ∀ (xs : VList), jsonCloneElems xs = xs
  | .vnil => rfl
  | .vcons v rest => by
      simp [jsonCloneElems, jsonClone_id v, jsonCloneElems_id rest]
end

mutual
theorem replaceValue_eq_mapStrings : ∀ (v : Val) (vars : VFields),
    replaceValue v vars =
      mapStrings (fun t => replaceStringVariables t vars) v
  | .str _, vars => by simp [replaceValue, mapStrings]
  | .num _, vars => by simp [replaceValue, mapStrings]
  | .bool _, vars => by simp [replaceValue, mapStrings]
  | .null, vars => by simp [replaceValue, mapStrings]
  | .obj fs, vars => by
      simp [replaceValue, mapStrings, replaceInFields_eq_mapStrings fs vars]
  | .arr xs, vars => by
      simp [replaceValue, mapStrings, replaceInElems_eq_mapStrings xs vars]

theorem replaceInFields_eq_mapStrings : ∀ (fs : VFields) (vars : VFields),
    replaceInFields fs vars =
      mapStringsFields (fun t => replaceStringVariables t vars) fs
  | .fnil, vars => by simp [replaceInFields, mapStringsFields]
  | .fcons k v rest, vars => by
      simp [replaceInFields, mapStringsFields,
        replaceValue_eq_mapStrings v vars,
        replaceInFields_eq_mapStrings rest vars]

theorem replaceInElems_eq_mapStrings : ∀ (xs : VList) (vars : VFields),
    replaceInElems xs vars =
      mapStringsElems (fun t => replaceStringVariables t vars) xs
  | .vnil, vars => by simp [replaceInElems, mapStringsElems]
  | .vcons v rest, vars => by
      simp [replaceInElems, mapStringsElems,
        replaceValue_eq_mapStrings v vars,
        replaceInElems_eq_mapStrings rest vars]
end

theorem strMk_data (s : String) : String.mk s.data = s := rfl

/-- Claim C2: over the placeholder decomposition of any string field,
`replaceStringVariables` replaces each occurrence whose name is bound in
the merged variables with that variable's (coerced) value and keeps each
occurrence with an unbound name verbatim, so a string none of whose
occurrence names are bound comes back unchanged (missing substitution is
not an error and is idempotent); and `processTemplate` applies exactly
this to every string field reachable through the template body. -/
theorem c2_substitution_per_occurrence (s : String) (vars : VFields) :
    (replaceStringVariables s vars =
      String.mk (((tokenizeStr s).map (applyTok vars)).flatten)) ∧
    (String.mk (((tokenizeStr s).map renderTok).flatten) = s) ∧
    ((∀ n, Tok.ph n ∈ tokenizeStr s → fget vars n = none) →
      replaceStringVariables s vars = s) ∧
    (∀ fs, processTemplate (.obj fs) vars =
      mapStrings (fun t => replaceStringVariables t vars) (.obj fs)) := by
  refine ⟨?_, ?_, fun hmiss => ?_, fun fs => ?_⟩
  · exact congrArg String.mk (substAux_eq_tokAux vars s.data.length s.data)
  · simp only [tokenizeStr]
    rw [tokAux_render s.data.length s.data]
  · have hmap : (tokenizeStr s).map (applyTok vars) =
        (tokenizeStr s).map renderTok := by
      apply List.map_congr_left
      intro t ht
      match t with
      | .lit c => rfl
      | .ph n =>
          simp [applyTok, renderTok, substRep, hmiss n ht]
    rw [replaceStringVariables, substAux_eq_tokAux vars s.data.length s.data]
    show String.mk (((tokenizeStr s).map (applyTok vars)).flatten) = s
    rw [hmap]
    simp only [tokenizeStr]
    rw [tokAux_render s.data.length s.data]
  · simp [processTemplate, replaceVariables, jsonClone,
      jsonCloneFields_id fs, mapStrings, replaceInFields_eq_mapStrings]

/-- Witness for C2 at a concrete input: on the seeded `chat-response`
text field, a bound `message` is substituted and an unbound name is kept
verbatim unchanged (idempotence of the missing case). -/
theorem c2_substitution_witness :
    replaceStringVariables "\x7b\x7bmessage\x7d\x7d"
      (vf [("message", .str "hi")]) = "hi" ∧
    replaceStringVariables "\x7b\x7bmessage\x7d\x7d"
      (vf [("tokens", .str "42")]) = "\x7b\x7bmessage\x7d\x7d" := by
  constructor
  · have h := (c2_substitution_per_occurrence "\x7b\x7bmessage\x7d\x7d"
      (vf [("message", .str "hi")])).1
    rw [h]; decide
  · apply (c2_substitution_per_occurrence "\x7b\x7bmessage\x7d\x7d"
      (vf [("tokens", .str "42")])).2.2.1
    intro n hn
    have htok : tokenizeStr "\x7b\x7bmessage\x7d\x7d" = [.ph "message"] := by
      decide
    rw [htok] at hn
    simp at hn
    subst hn
    decide

/-- Counterexample to claim C9 as stated: a template whose array element
carries a placeholder with a bound variable comes back with the element
rewritten, because `typeof arr === 'object'` sends arrays into the
recursive walk and the for-in loop visits their indices.  The claim says
such elements are never rewritten. -/
theorem c9_counterexample_array_element_rewritten :
    ((generateEvent (addCustomTemplate initState "t-arr"
        (.obj (vf [("cols", .arr (vl [.str "\x7b\x7bx\x7d\x7d"]))])))
      "t-arr" (vf [("x", .str "y")]) none "T" 0).1.toOption.bind
      (fun ev => vget ev "cols")) = some (.arr (vl [.str "y"])) := by
  decide

/-- Claim C9 (amended): the recursive walk treats array-valued fields
exactly like object-valued ones (the JavaScript typeof test classifies
both as objects and for-in enumerates array indices), so every string
leaf under arrays as well as objects is substituted; arrays are not
skipped.  For the built-in registry templates this is unobservable,
since their only array (the columns list of display-agent-list) holds
no placeholder. -/
theorem c9_arrays_are_walked (vars : VFields) (xs : VList) (fs : VFields) :
    replaceVariables (.arr xs) vars =
      mapStrings (fun t => replaceStringVariables t vars) (.arr xs) ∧
    replaceVariables (.obj fs) vars =
      mapStrings (fun t => replaceStringVariables t vars) (.obj fs) := by
  constructor
  · simp [replaceVariables, mapStrings, replaceInElems_eq_mapStrings xs vars]
  · simp [replaceVariables, mapStrings, replaceInFields_eq_mapStrings fs vars]

theorem fget_fremove : ∀ (fs : VFields) (k n : String),
    fget (fremove fs k) n = if n = k then none else fget fs n
  | .fnil, k, n => by simp [fremove, fget]
  | .fcons k1 v1 rest, k, n => by
      by_cases h1 : k1 = k
      · subst h1
        rw [show fremove (.fcons k1 v1 rest) k1 = fremove rest k1 by
          simp [fremove]]
        rw [fget_fremove rest k1 n]
        by_cases h2 : n = k1
        · simp [h2]
        · have h3 : ¬k1 = n := fun hh => h2 hh.symm
          simp [h2, fget, h3]
      · rw [show fremove (.fcons k1 v1 rest) k = .fcons k1 v1 (fremove rest k)
          by simp [fremove, h1]]
        by_cases h2 : k1 = n
        · subst h2
          simp [fget, h1]
        · simp [fget, h2, fget_fremove rest k n]

/-- The scan consults the variables only at nonempty all-word-character
names, so two variable maps agreeing on those names substitute alike. -/
theorem substAux_congr (v1 v2 : VFields)
    (hagree : ∀ n : String, n.data ≠ [] → n.data.all isWordChar = true →
      fget v1 n = fget v2 n) :
    ∀ (fuel : Nat) (cs : List Char),
    substAux v1 fuel cs = substAux v2 fuel cs := by
  intro fuel
  induction fuel with
  | zero => intro cs; rfl
  | succ fuel ih =>
      intro cs
      match cs with
      | [] => rfl
      | [c] => rfl
      | c1 :: c2 :: rest =>
          simp only [substAux]
          split
          · split
            · rename_i hcond
              rw [ih]
              have hrun := takeWhile_chars_all isWordChar rest
              have hname : fget v1 (String.mk (rest.takeWhile isWordChar)) =
                  fget v2 (String.mk (rest.takeWhile isWordChar)) := by
                apply hagree
                · simpa using hcond.1
                · simp only [String.mk] at *
                  exact hrun
              rw [substRep, substRep, hname]
            · simp [ih]
          · simp [ih]

theorem takeWhile_of_split (p : Char → Bool) :
    ∀ (w : List Char) (c : Char) (t : List Char), w.all p = true →
      p c = false → (w ++ c :: t).takeWhile p = w
  | [], c, t, _, hc => by
      simp only [List.nil_append]
      rw [List.takeWhile_cons_of_neg (by simp [hc])]
  | a :: w, c, t, hall, hc => by
      simp only [List.all_cons, Bool.and_eq_true] at hall
      simp only [List.cons_append]
      rw [List.takeWhile_cons_of_pos hall.1,
        takeWhile_of_split p w c t hall.2 hc]

theorem dropWhile_head_false (p : Char → Bool) :
    ∀ (l : List Char) (c : Char) (t : List Char),
      l.dropWhile p = c :: t → p c = false
  | [], c, t, h => by simp [List.dropWhile] at h
  | a :: rest, c, t, h => by
      by_cases ha : p a
      · rw [List.dropWhile_cons_of_pos ha] at h
        exact dropWhile_head_false p rest c t h
      · rw [List.dropWhile_cons_of_neg (by simpa using ha)] at h
        cases h
        simpa using ha

theorem hasObrPair_eq_false_of_no_obr :
    ∀ (l : List Char), (∀ c ∈ l, ¬c = obr) → hasObrPair l = false
  | [], _ => by simp [hasObrPair]
  | [_], _ => by simp [hasObrPair]
  | c1 :: c2 :: rest, h => by
      have h1 : ¬c1 = obr := h c1 (by simp)
      have hrest : ∀ c ∈ c2 :: rest, ¬c = obr := fun c hc =>
        h c (List.mem_cons_of_mem c1 hc)
      simp [hasObrPair, h1,
        hasObrPair_eq_false_of_no_obr (c2 :: rest) hrest]

theorem hasObrPair_cons_eq_false (c1 : Char) (l : List Char)
    (hl : ∀ c ∈ l, ¬c = obr) : hasObrPair (c1 :: l) = false := by
  cases l with
  | nil => simp [hasObrPair]
  | cons c2 rest =>
      have h2 : ¬c2 = obr := hl c2 (by simp)
      simp [hasObrPair, h2, hasObrPair_eq_false_of_no_obr (c2 :: rest) hl]

/-- Without two adjacent open braces the scan copies its input. -/
theorem substAux_id_of_no_pair (vars : VFields) :
    ∀ (fuel : Nat) (cs : List Char), hasObrPair cs = false →
      substAux vars fuel cs = cs := by
  intro fuel
  induction fuel with
  | zero => intro cs _; rfl
  | succ fuel ih =>
      intro cs hnp
      match cs with
      | [] => rfl
      | [c] => rfl
      | c1 :: c2 :: rest =>
          simp only [hasObrPair, Bool.or_eq_false_iff,
            Bool.and_eq_false_iff, beq_eq_false_iff_ne] at hnp
          simp only [substAux]
          have hcond : ¬(c1 = obr ∧ c2 = obr) := by
            intro hc
            rcases hnp.1 with h | h
            · exact h hc.1
            · exact h hc.2
          rw [if_neg hcond, ih (c2 :: rest) hnp.2]

/-- Claim C10: only word-character names are substitution candidates.  A
variable whose name contains a non-word character is never consulted by
the scan (removing it from the variable map changes no output), and a
placeholder occurrence written with such a name (with no brace characters
inside it) survives verbatim even though the variable map binds that
name. -/
theorem c10_nonword_names_never_substituted (k : String) (vars : VFields)
    (s : String) (hk : ¬k.data.all isWordChar = true) :
    replaceStringVariables s vars =
      replaceStringVariables s (fremove vars k) ∧
    ((∀ c ∈ k.data, ¬c = obr ∧ ¬c = cbr) →
      replaceStringVariables ("\x7b\x7b" ++ k ++ "\x7d\x7d") vars =
        "\x7b\x7b" ++ k ++ "\x7d\x7d") := by
  constructor
  · unfold replaceStringVariables
    congr 1
    apply substAux_congr
    intro n hne hall
    rw [fget_fremove vars k n]
    have hnk : ¬n = k := by
      intro hnk
      subst hnk
      exact hk hall
    rw [if_neg hnk]
  · intro hbrace
    have hsplit := List.takeWhile_append_dropWhile isWordChar k.data
    have hdnil : k.data.dropWhile isWordChar ≠ [] := by
      intro h0
      apply hk
      rw [List.all_eq_true]
      intro c hc
      exact List.dropWhile_eq_nil_iff.mp h0 c hc
    obtain ⟨c, t, hd⟩ : ∃ c t, k.data.dropWhile isWordChar = c :: t := by
      cases hdw : k.data.dropWhile isWordChar with
      | nil => exact absurd hdw hdnil
      | cons c t => exact ⟨c, t, rfl⟩
    have hpc : isWordChar c = false :=
      dropWhile_head_false isWordChar k.data c t hd
    have hkdata : k.data = k.data.takeWhile isWordChar ++ c :: t := by
      rw [← hd, hsplit]
    have hcmem : c ∈ k.data := by
      rw [hkdata]
      exact List.mem_append_right _ (List.mem_cons_self c t)
    have hwall : (k.data.takeWhile isWordChar).all isWordChar = true :=
      takeWhile_chars_all isWordChar k.data
    have hdata : ("\x7b\x7b" ++ k ++ "\x7d\x7d").data =
        obr :: obr :: (k.data ++ [cbr, cbr]) := by
      rw [String.data_append, String.data_append]
      have h1 : ("\x7b\x7b" : String).data = [obr, obr] := by decide
      have h2 : ("\x7d\x7d" : String).data = [cbr, cbr] := by decide
      rw [h1, h2]
      simp
    have hL : k.data ++ [cbr, cbr] =
        k.data.takeWhile isWordChar ++ c :: (t ++ [cbr, cbr]) := by
      conv_lhs => rw [hkdata]
      simp
    have hnobr : ∀ ch ∈ obr :: (k.data ++ [cbr, cbr]), True := fun _ _ => trivial
    unfold replaceStringVariables
    rw [hdata, hL]
    simp only [List.length_cons]
    simp only [substAux]
    rw [if_pos (And.intro trivial trivial)]
    rw [takeWhile_of_split isWordChar (k.data.takeWhile isWordChar) c
      (t ++ [cbr, cbr]) hwall hpc]
    rw [List.drop_left]
    have hinner : ¬(k.data.takeWhile isWordChar ≠ [] ∧
        (c :: (t ++ [cbr, cbr])).take 2 = [cbr, cbr]) := by
      intro hc2
      have h2 := hc2.2
      simp only [List.take_succ_cons, List.cons.injEq] at h2
      exact (hbrace c hcmem).2 h2.1
    rw [if_neg hinner]
    have hscan : substAux vars
        ((k.data.takeWhile isWordChar ++ c :: (t ++ [cbr, cbr])).length + 1)
        (obr :: (k.data.takeWhile isWordChar ++ c :: (t ++ [cbr, cbr]))) =
        obr :: (k.data.takeWhile isWordChar ++ c :: (t ++ [cbr, cbr])) := by
      apply substAux_id_of_no_pair
      apply hasObrPair_cons_eq_false
      intro ch hch
      rw [← hL] at hch
      rcases List.mem_append.mp hch with hin | hin
      · exact (hbrace ch hin).1
      · have hcc : ch = cbr := by simpa using hin
        subst hcc
        decide
    rw [hscan, ← hL, ← hdata]

/-- Witness for C10 at a concrete input: the hyphenated name `a-b` is
bound in the variable map, yet removing it changes nothing and its
occurrence survives verbatim. -/
theorem c10_nonword_names_witness :
    replaceStringVariables "go \x7b\x7ba-b\x7d\x7d" (vf [("a-b", .str "v")]) =
      replaceStringVariables "go \x7b\x7ba-b\x7d\x7d"
        (fremove (vf [("a-b", .str "v")]) "a-b") ∧
    replaceStringVariables ("\x7b\x7b" ++ "a-b" ++ "\x7d\x7d")
      (vf [("a-b", .str "v")]) = "\x7b\x7b" ++ "a-b" ++ "\x7d\x7d" := by
  have h := c10_nonword_names_never_substituted "a-b"
    (vf [("a-b", .str "v")]) "go \x7b\x7ba-b\x7d\x7d" (by decide)
  exact ⟨h.1, h.2 (by decide)⟩

theorem generateEvent_some (st : AgentState) (tid : String) (t : Val)
    (vars : VFields) (cid : Option String) (iso : String) (ms : Nat)
    (h : mget st.eventTemplates tid = some t) :
    generateEvent st tid vars cid iso ms =
      (.ok (assignField
          (processTemplate t (spread (defaultVariables iso
            (getSessionId st cid iso ms).1) vars))
          "agui_metadata" (aguiMetadata tid iso cid)),
       (getSessionId st cid iso ms).2) := by
  simp [generateEvent, h]

/-- Counterexample to claim C6 as stated: when the upstream health call
fails AND the delivery of the resulting display-error event also fails,
the flow throws and yields no event at all (the claim says an event is
always produced and returned for every invocation). -/
theorem c6_counterexample_no_event_on_delivery_failure :
    (generateSystemHealthDisplay initState
      { sendAGUIEvent := some (fun _ _ => .error "net down")
      , getSystemHealth := .error "health down"
      , getMetrics := .ok .null
      , listAgents := .ok .null }
      (some "c1") "T" 0).1 = .error "net down" := rfl

theorem generateEvent_missing (st : AgentState) (tid : String)
    (vars : VFields) (cid : Option String) (iso : String) (ms : Nat)
    (h : mget st.eventTemplates tid = none) :
    generateEvent st tid vars cid iso ms =
      (.error ("Template '" ++ tid ++ "' not found"), st) := by
  simp [generateEvent, h]

theorem vget_displayError_meta (fs2 : VFields) (iso : String)
    (cid : Option String) :
    (vget (assignField (.obj fs2) "agui_metadata"
        (aguiMetadata "display-error" iso cid)) "agui_metadata").bind
      (fun m => vget m "template_id") = some (.str "display-error") := by
  simp only [assignField, vget, fget_fset_self]
  rfl

/-- Claim C6 (amended): provided the registered `display-error` template
is an object template and event delivery does not itself fail, each
specialized display flow returns an event for every invocation; an
upstream provider failure is caught inside the flow and converted into a
generated `display-error` event rather than propagated.  (When delivery
of the display-error event fails the flow propagates that failure and
returns no event — see the counterexample.) -/
theorem c6_flows_convert_upstream_errors (st : AgentState)
    (aw : AutoweaveInstance) (cid : Option String) (iso : String) (ms : Nat)
    (fs : VFields)
    (hobj : mget st.eventTemplates "display-error" = some (.obj fs))
    (hsend : ∀ e c2, sendEvent aw e c2 = .ok ()) :
    (∃ ev st2, generateSystemHealthDisplay st aw cid iso ms =
      (.ok ev, st2)) ∧
    (∃ ev st2, generateAgentListDisplay st aw cid iso ms =
      (.ok ev, st2)) ∧
    (∀ e, aw.getSystemHealth = .error e →
      ∃ ev st2, generateSystemHealthDisplay st aw cid iso ms =
        (.ok ev, st2) ∧
        (vget ev "agui_metadata").bind (fun m => vget m "template_id") =
          some (.str "display-error")) := by
  have hcatch : ∀ (stx : AgentState) (vars : VFields),
      stx.eventTemplates = st.eventTemplates →
      ∃ fs2, generateEvent stx "display-error" vars cid iso ms =
        (.ok (assignField (.obj fs2) "agui_metadata"
          (aguiMetadata "display-error" iso cid)),
         (getSessionId stx cid iso ms).2) := by
    intro stx vars hx
    refine ⟨replaceInFields fs (spread (defaultVariables iso
      (getSessionId stx cid iso ms).1) vars), ?_⟩
    rw [generateEvent_some stx "display-error" (.obj fs) vars cid iso ms
      (by rw [hx]; exact hobj)]
    simp [processTemplate, jsonClone, jsonCloneFields_id, replaceVariables,
      assignField]
  refine ⟨?_, ?_, ?_⟩
  · cases hh : aw.getSystemHealth with
    | error e =>
        obtain ⟨fs2, hc⟩ := hcatch st
          (vf [ ("error_title", .str "Health Check Failed")
              , ("error_message", .str "Unable to retrieve system health")
              , ("error_details", .str e)
              , ("error_code", .str "HEALTH_CHECK_ERROR") ]) rfl
        refine ⟨assignField (.obj fs2) "agui_metadata"
          (aguiMetadata "display-error" iso cid),
          (getSessionId st cid iso ms).2, ?_⟩
        simp only [generateSystemHealthDisplay, hh, generateDisplayEvent,
          hc, hsend]
    | ok health =>
        cases hm : aw.getMetrics with
        | error e =>
            obtain ⟨fs2, hc⟩ := hcatch st
              (vf [ ("error_title", .str "Health Check Failed")
                  , ("error_message",
                      .str "Unable to retrieve system health")
                  , ("error_details", .str e)
                  , ("error_code", .str "HEALTH_CHECK_ERROR") ]) rfl
            refine ⟨assignField (.obj fs2) "agui_metadata"
              (aguiMetadata "display-error" iso cid),
              (getSessionId st cid iso ms).2, ?_⟩
            simp only [generateSystemHealthDisplay, hh, hm,
              generateDisplayEvent, hc, hsend]
        | ok metrics =>
            cases hdm : mget st.eventTemplates "display-metrics" with
            | none =>
                obtain ⟨fs2, hc⟩ := hcatch st
                  (vf [ ("error_title", .str "Health Check Failed")
                      , ("error_message",
                          .str "Unable to retrieve system health")
                      , ("error_details",
                          .str ("Template '" ++ "display-metrics" ++
                            "' not found"))
                      , ("error_code", .str "HEALTH_CHECK_ERROR") ]) rfl
                refine ⟨assignField (.obj fs2) "agui_metadata"
                  (aguiMetadata "display-error" iso cid),
                  (getSessionId st cid iso ms).2, ?_⟩
                simp only [generateSystemHealthDisplay, hh, hm,
                  generateDisplayEvent,
                  generateEvent_missing st "display-metrics" _ cid iso ms hdm,
                  hc, hsend]
            | some tm =>
                refine ⟨assignField (processTemplate tm
                    (spread (defaultVariables iso
                      (getSessionId st cid iso ms).1)
                      (vf [ ("metrics_data", .obj (vf
                              [ ("system_health", health)
                              , ("metrics", metrics) ]))
                          , ("refresh_rate", .str "30s") ])))
                    "agui_metadata" (aguiMetadata "display-metrics" iso cid),
                  (getSessionId st cid iso ms).2, ?_⟩
                simp only [generateSystemHealthDisplay, hh, hm,
                  generateDisplayEvent,
                  generateEvent_some st "display-metrics" tm _ cid iso ms hdm,
                  hsend]
  · cases hla : aw.listAgents with
    | error e =>
        obtain ⟨fs2, hc⟩ := hcatch st
          (vf [ ("error_title", .str "Agent List Failed")
              , ("error_message", .str "Unable to retrieve agent list")
              , ("error_details", .str e)
              , ("error_code", .str "AGENT_LIST_ERROR") ]) rfl
        refine ⟨assignField (.obj fs2) "agui_metadata"
          (aguiMetadata "display-error" iso cid),
          (getSessionId st cid iso ms).2, ?_⟩
        simp only [generateAgentListDisplay, hla, generateDisplayEvent,
          hc, hsend]
    | ok agents =>
        cases hjm : jsMember agents "agents" with
        | error e =>
            obtain ⟨fs2, hc⟩ := hcatch st
              (vf [ ("error_title", .str "Agent List Failed")
                  , ("error_message", .str "Unable to retrieve agent list")
                  , ("error_details", .str e)
                  , ("error_code", .str "AGENT_LIST_ERROR") ]) rfl
            refine ⟨assignField (.obj fs2) "agui_metadata"
              (aguiMetadata "display-error" iso cid),
              (getSessionId st cid iso ms).2, ?_⟩
            simp only [generateAgentListDisplay, hla, hjm,
              generateDisplayEvent, hc, hsend]
        | ok magents =>
            cases hdl : mget st.eventTemplates "display-agent-list" with
            | none =>
                obtain ⟨fs2, hc⟩ := hcatch st
                  (vf [ ("error_title", .str "Agent List Failed")
                      , ("error_message",
                          .str "Unable to retrieve agent list")
                      , ("error_details",
                          .str ("Template '" ++ "display-agent-list" ++
                            "' not found"))
                      , ("error_code", .str "AGENT_LIST_ERROR") ]) rfl
                refine ⟨assignField (.obj fs2) "agui_metadata"
                  (aguiMetadata "display-error" iso cid),
                  (getSessionId st cid iso ms).2, ?_⟩
                simp only [generateAgentListDisplay, hla, hjm,
                  generateDisplayEvent,
                  generateEvent_missing st "display-agent-list" _ cid iso ms
                    hdl, hc, hsend]
            | some tl =>
                refine ⟨assignField (processTemplate tl
                    (spread (defaultVariables iso
                      (getSessionId st cid iso ms).1)
                      (.fcons "agents_data" (agentsDataOf magents)
                        (totalAgentsBinding magents))))
                    "agui_metadata"
                    (aguiMetadata "display-agent-list" iso cid),
                  (getSessionId st cid iso ms).2, ?_⟩
                simp only [generateAgentListDisplay, hla, hjm,
                  generateDisplayEvent,
                  generateEvent_some st "display-agent-list" tl _ cid iso ms
                    hdl, hsend]
  · intro e hh
    obtain ⟨fs2, hc⟩ := hcatch st
      (vf [ ("error_title", .str "Health Check Failed")
          , ("error_message", .str "Unable to retrieve system health")
          , ("error_details", .str e)
          , ("error_code", .str "HEALTH_CHECK_ERROR") ]) rfl
    refine ⟨assignField (.obj fs2) "agui_metadata"
      (aguiMetadata "display-error" iso cid),
      (getSessionId st cid iso ms).2, ?_, ?_⟩
    · simp only [generateSystemHealthDisplay, hh, generateDisplayEvent,
        hc, hsend]
    · exact vget_displayError_meta fs2 iso cid

/-- Witness for C6 at a concrete input: with a failing health provider
and no delivery sink, the health flow still returns an event. -/
theorem c6_flows_witness :
    ∃ ev st2, generateSystemHealthDisplay initState
      { sendAGUIEvent := none, getSystemHealth := .error "down"
      , getMetrics := .ok .null, listAgents := .ok .null }
      (some "c1") "T" 3 = (.ok ev, st2) :=
  (c6_flows_convert_upstream_errors initState
    { sendAGUIEvent := none, getSystemHealth := .error "down"
    , getMetrics := .ok .null, listAgents := .ok .null }
    (some "c1") "T" 3
    (vf [ ("type", .str "display")
        , ("template", .obj (vf
            [ ("type", .str "error")
            , ("title", .str "âŒ \x7b\x7berror_title\x7d\x7d")
            , ("message", .str "\x7b\x7berror_message\x7d\x7d")
            , ("details", .str "\x7b\x7berror_details\x7d\x7d")
            , ("timestamp", .str "\x7b\x7btimestamp\x7d\x7d")
            , ("metadata", .obj (vf
                [ ("event_type", .str "error")
                , ("error_code", .str "\x7b\x7berror_code\x7d\x7d") ])) ])) ])
    (by decide) (fun _ _ => rfl)).1

/-- A string that is exactly one placeholder with a bound word-character
name substitutes to the ToString coercion of the bound value — this is
where a provider object becomes `[object Object]` rather than being
embedded verbatim. -/
theorem replaceString_single_placeholder (vars : VFields) (name : String)
    (v : Val) (hall : name.data.all isWordChar = true)
    (hne : name.data ≠ []) (hv : fget vars name = some v) :
    replaceStringVariables ("\x7b\x7b" ++ name ++ "\x7d\x7d") vars =
      jsToString v := by
  have hdata : ("\x7b\x7b" ++ name ++ "\x7d\x7d").data =
      obr :: obr :: (name.data ++ [cbr, cbr]) := by
    rw [String.data_append, String.data_append]
    have h1 : ("\x7b\x7b" : String).data = [obr, obr] := by decide
    have h2 : ("\x7d\x7d" : String).data = [cbr, cbr] := by decide
    rw [h1, h2]
    simp
  have hL : name.data ++ [cbr, cbr] = name.data ++ cbr :: [cbr] := rfl
  have hcw : isWordChar cbr = false := by decide
  unfold replaceStringVariables
  rw [hdata]
  simp only [List.length_cons]
  simp only [substAux]
  rw [if_pos (And.intro trivial trivial)]
  rw [hL, takeWhile_of_split isWordChar name.data cbr [cbr] hall hcw,
    List.drop_left]
  rw [if_pos (And.intro hne (by simp))]
  have hname : String.mk name.data = name := strMk_data name
  rw [substRep, hname, hv]
  simp only [List.drop_succ_cons, List.drop_zero]
  have hnil : ∀ f, substAux vars f [] = [] := by
    intro f
    cases f <;> simp [substAux]
  rw [hnil]
  simp [strMk_data]

/-- Counterexample to claim C8 as stated: the agent-list flow returns an
event whose data field is the string `[object Object]`, not the
provider's array — the template field `data` is the string
placeholder, and the regex replace coerces the bound array of objects
with JavaScript ToString instead of embedding it structurally. -/
theorem c8_counterexample_data_not_verbatim :
    ((generateAgentListDisplay initState
        { sendAGUIEvent := none
        , getSystemHealth := .ok .null
        , getMetrics := .ok .null
        , listAgents := .ok (.obj (vf [("agents",
            .arr (vl [.obj (vf [("id", .str "a1")])]))])) }
        (some "c1") "T" 5).1.toOption.bind
      (fun ev => (vget ev "template").bind (fun b => vget b "data"))) =
      some (.str "[object Object]") ∧
    Val.str "[object Object]" ≠
      Val.arr (vl [.obj (vf [("id", .str "a1")])]) :=
  ⟨rfl, by decide⟩

/-- Claim C8 (amended): the provider objects are consumed without schema
validation and bound as substitution variables, but the display
templates hold them in string placeholder fields, so the generated
event's `data` field carries the JavaScript string coercion of the
provider value (an array of objects joins as `[object Object]` entries,
a plain object becomes `[object Object]`), not the value embedded
verbatim. -/
theorem c8_provider_data_string_coerced
    (sessions : List (String × SessionRecord))
    (ui : List (String × List (String × Val)))
    (aw : AutoweaveInstance) (cid : Option String) (iso : String) (ms : Nat)
    (xs : VList) (health metrics : Val)
    (hla : aw.listAgents = .ok (.obj (vf [("agents", .arr xs)])))
    (hh : aw.getSystemHealth = .ok health)
    (hm : aw.getMetrics = .ok metrics)
    (hsend : ∀ e c2, sendEvent aw e c2 = .ok ()) :
    ((generateAgentListDisplay ⟨initTemplates, sessions, ui⟩ aw cid iso
        ms).1.toOption.bind
      (fun ev => (vget ev "template").bind (fun b => vget b "data"))) =
      some (.str (jsToString (.arr xs))) ∧
    ((generateSystemHealthDisplay ⟨initTemplates, sessions, ui⟩ aw cid iso
        ms).1.toOption.bind
      (fun ev => (vget ev "template").bind (fun b => vget b "data"))) =
      some (.str "[object Object]") := by
  constructor
  · have hfget : fget (spread (defaultVariables iso
        (getSessionId (AgentState.mk initTemplates sessions ui) cid iso
          ms).1) (.fcons "agents_data" (.arr xs)
        (.fcons "total_agents" (.num (vlLength xs)) .fnil)))
        "agents_data" = some (.arr xs) := by
      rw [fget_spread _ _ _ (by simp [fkeys])]
      rfl
    have hsub : replaceStringVariables "\x7b\x7bagents_data\x7d\x7d"
        (spread (defaultVariables iso
          (getSessionId (AgentState.mk initTemplates sessions ui) cid iso
            ms).1) (.fcons "agents_data" (.arr xs)
          (.fcons "total_agents" (.num (vlLength xs)) .fnil))) =
        jsToString (.arr xs) := by
      have hp := replaceString_single_placeholder _ "agents_data" (.arr xs)
        (by decide) (by decide) hfget
      rw [show ("\x7b\x7b" ++ "agents_data" ++ "\x7d\x7d" : String) =
        "\x7b\x7bagents_data\x7d\x7d" from rfl] at hp
      exact hp
    have h2 : some (Val.str (replaceStringVariables
        "\x7b\x7bagents_data\x7d\x7d"
        (spread (defaultVariables iso
          (getSessionId (AgentState.mk initTemplates sessions ui) cid iso
            ms).1) (.fcons "agents_data" (.arr xs)
          (.fcons "total_agents" (.num (vlLength xs)) .fnil))))) =
        some (Val.str (jsToString (Val.arr xs))) := by
      rw [hsub]
    simp only [generateAgentListDisplay, hla, generateDisplayEvent, hsend]
    exact Eq.trans rfl h2
  · simp only [generateSystemHealthDisplay, hh, hm, generateDisplayEvent,
      hsend]
    rfl

/-- Witness for C8's amended theorem at a concrete input. -/
theorem c8_provider_data_witness :
    ((generateAgentListDisplay ⟨initTemplates, [], []⟩
        { sendAGUIEvent := none, getSystemHealth := .ok .null
        , getMetrics := .ok .null
        , listAgents := .ok (.obj (vf [("agents",
            .arr (vl [.obj (vf [("id", .str "a1")])]))])) }
        (some "c") "T" 1).1.toOption.bind
      (fun ev => (vget ev "template").bind (fun b => vget b "data"))) =
      some (.str (jsToString (.arr (vl [.obj (vf [("id", .str "a1")])])))) ∧
    ((generateSystemHealthDisplay ⟨initTemplates, [], []⟩
        { sendAGUIEvent := none, getSystemHealth := .ok .null
        , getMetrics := .ok .null
        , listAgents := .ok (.obj (vf [("agents",
            .arr (vl [.obj (vf [("id", .str "a1")])]))])) }
        (some "c") "T" 1).1.toOption.bind
      (fun ev => (vget ev "template").bind (fun b => vget b "data"))) =
      some (.str "[object Object]") :=
  c8_provider_data_string_coerced [] []
    { sendAGUIEvent := none, getSystemHealth := .ok .null
    , getMetrics := .ok .null
    , listAgents := .ok (.obj (vf [("agents",
        .arr (vl [.obj (vf [("id", .str "a1")])]))])) }
    (some "c") "T" 1 (vl [.obj (vf [("id", .str "a1")])]) .null .null
    rfl rfl rfl (fun _ _ => rfl)

theorem readFieldsWith_mono (r r2 : Nat → Option Val)
    (hr : ∀ a v, r a = some v → r2 a = some v) :
    ∀ (fs : List (String × Nat)) (vfs : VFields),
    readFieldsWith r fs = some vfs → readFieldsWith r2 fs = some vfs
  | [], vfs, h => by simpa [readFieldsWith] using h
  | (k, a) :: rest, vfs, h => by
      simp only [readFieldsWith] at h ⊢
      cases hra : r a with
      | none => rw [hra] at h; exact absurd h (by simp)
      | some v =>
          rw [hra] at h
          cases hrest : readFieldsWith r rest with
          | none => rw [hrest] at h; exact absurd h (by simp)
          | some vs =>
              rw [hrest] at h
              rw [hr a v hra, readFieldsWith_mono r r2 hr rest vs hrest]
              exact h

theorem readElemsWith_mono (r r2 : Nat → Option Val)
    (hr : ∀ a v, r a = some v → r2 a = some v) :
    ∀ (as : List Nat) (vs : VList),
    readElemsWith r as = some vs → readElemsWith r2 as = some vs
  | [], vs, h => by simpa [readElemsWith] using h
  | a :: rest, vs, h => by
      simp only [readElemsWith] at h ⊢
      cases hra : r a with
      | none => rw [hra] at h; exact absurd h (by simp)
      | some v =>
          rw [hra] at h
          cases hrest : readElemsWith r rest with
          | none => rw [hrest] at h; exact absurd h (by simp)
          | some vs2 =>
              rw [hrest] at h
              rw [hr a v hra, readElemsWith_mono r r2 hr rest vs2 hrest]
              exact h

/-- Reading is stable under extending the heap on the right: a value
readable in `h` only follows pointers into `h`. -/
theorem readValue_append (h e : Heap) :
    ∀ (fuel a : Nat) (v : Val), readValue h fuel a = some v →
    readValue (h ++ e) fuel a = some v := by
  intro fuel
  induction fuel with
  | zero => intro a v hv; simp [readValue] at hv
  | succ fuel ih =>
      intro a v hv
      simp only [readValue] at hv ⊢
      cases hc : h[a]? with
      | none => rw [hc] at hv; exact absurd hv (by simp)
      | some cell =>
          have hlt : a < h.length := (List.getElem?_eq_some.mp hc).1
          rw [hc] at hv
          rw [List.getElem?_append_left hlt, hc]
          cases cell with
          | hstr s => exact hv
          | hnum n => exact hv
          | hbool b => exact hv
          | hnull => exact hv
          | hobj fs =>
              have hv2 : Option.map Val.obj
                  (readFieldsWith (readValue h fuel) fs) = some v := hv
              show Option.map Val.obj
                (readFieldsWith (readValue (h ++ e) fuel) fs) = some v
              cases hvfs : readFieldsWith (readValue h fuel) fs with
              | none => rw [hvfs] at hv2; exact absurd hv2 (by simp)
              | some vfs =>
                  rw [hvfs] at hv2
                  rw [readFieldsWith_mono _ _ (fun a2 v2 hv3 =>
                    ih a2 v2 hv3) fs vfs hvfs]
                  exact hv2
          | harr as =>
              have hv2 : Option.map Val.arr
                  (readElemsWith (readValue h fuel) as) = some v := hv
              show Option.map Val.arr
                (readElemsWith (readValue (h ++ e) fuel) as) = some v
              cases hvs : readElemsWith (readValue h fuel) as with
              | none => rw [hvs] at hv2; exact absurd hv2 (by simp)
              | some vs =>
                  rw [hvs] at hv2
                  rw [readElemsWith_mono _ _ (fun a2 v2 hv3 =>
                    ih a2 v2 hv3) as vs hvs]
                  exact hv2

/-- Reading is monotone in fuel. -/
theorem readValue_fuel_mono (h : Heap) :
    ∀ (fuel fuel2 a : Nat) (v : Val), fuel ≤ fuel2 →
    readValue h fuel a = some v → readValue h fuel2 a = some v := by
  intro fuel
  induction fuel with
  | zero => intro fuel2 a v _ hv; simp [readValue] at hv
  | succ fuel ih =>
      intro fuel2 a v hle hv
      obtain ⟨f2, rfl⟩ : ∃ f2, fuel2 = f2 + 1 := by
        cases fuel2 with
        | zero => omega
        | succ f2 => exact ⟨f2, rfl⟩
      have hle2 : fuel ≤ f2 := by omega
      simp only [readValue] at hv ⊢
      cases hc : h[a]? with
      | none => rw [hc] at hv; exact absurd hv (by simp)
      | some cell =>
          rw [hc] at hv
          cases cell with
          | hstr s => exact hv
          | hnum n => exact hv
          | hbool b => exact hv
          | hnull => exact hv
          | hobj fs =>
              have hv2 : Option.map Val.obj
                  (readFieldsWith (readValue h fuel) fs) = some v := hv
              show Option.map Val.obj
                (readFieldsWith (readValue h f2) fs) = some v
              cases hvfs : readFieldsWith (readValue h fuel) fs with
              | none => rw [hvfs] at hv2; exact absurd hv2 (by simp)
              | some vfs =>
                  rw [hvfs] at hv2
                  rw [readFieldsWith_mono _ _ (fun a2 v2 hv3 =>
                    ih f2 a2 v2 hle2 hv3) fs vfs hvfs]
                  exact hv2
          | harr as =>
              have hv2 : Option.map Val.arr
                  (readElemsWith (readValue h fuel) as) = some v := hv
              show Option.map Val.arr
                (readElemsWith (readValue h f2) as) = some v
              cases hvs : readElemsWith (readValue h fuel) as with
              | none => rw [hvs] at hv2; exact absurd hv2 (by simp)
              | some vs =>
                  rw [hvs] at hv2
                  rw [readElemsWith_mono _ _ (fun a2 v2 hv3 =>
                    ih f2 a2 v2 hle2 hv3) as vs hvs]
                  exact hv2

mutual
theorem allocValue_prefix : ∀ (v : Val) (h : Heap),
    ∃ e, (allocValue h v).1 = h ++ e
  | .str s, h => ⟨[.hstr s], rfl⟩
  | .num n, h => ⟨[.hnum n], rfl⟩
  | .bool b, h => ⟨[.hbool b], rfl⟩
  | .null, h => ⟨[.hnull], rfl⟩
  | .obj fs, h => by
      obtain ⟨e1, he1⟩ := allocFields_prefix fs h
      exact ⟨e1 ++ [.hobj (allocFields h fs).2], by
        simp [allocValue, he1]⟩
  | .arr xs, h => by
      obtain ⟨e1, he1⟩ := allocElems_prefix xs h
      exact ⟨e1 ++ [.harr (allocElems h xs).2], by
        simp [allocValue, he1]⟩

theorem allocFields_prefix : ∀ (fs : VFields) (h : Heap),
    ∃ e, (allocFields h fs).1 = h ++ e
  | .fnil, h => ⟨[], by simp [allocFields]⟩
  | .fcons k v rest, h => by
      obtain ⟨e1, he1⟩ := allocValue_prefix v h
      obtain ⟨e2, he2⟩ := allocFields_prefix rest (allocValue h v).1
      exact ⟨e1 ++ e2, by
        simp only [allocFields]
        rw [he2, he1, List.append_assoc]⟩

theorem allocElems_prefix : ∀ (xs : VList) (h : Heap),
    ∃ e, (allocElems h xs).1 = h ++ e
  | .vnil, h => ⟨[], by simp [allocElems]⟩
  | .vcons v rest, h => by
      obtain ⟨e1, he1⟩ := allocValue_prefix v h
      obtain ⟨e2, he2⟩ := allocElems_prefix rest (allocValue h v).1
      exact ⟨e1 ++ e2, by
        simp only [allocElems]
        rw [he2, he1, List.append_assoc]⟩
end

theorem getElem_concat_mid (h : Heap) (x : HVal) (e : Heap) :
    (h ++ [x] ++ e)[h.length]? = some x := by
  rw [List.append_assoc, List.getElem?_append_right (le_refl _)]
  simp

mutual
/-- The copy reads back as the copied value: correctness of the JSON
round-trip clone, in any rightward extension of the copy's heap. -/
theorem allocValue_read : ∀ (v : Val) (h e : Heap) (fuel : Nat),
    vDepth v ≤ fuel →
    readValue ((allocValue h v).1 ++ e) fuel (allocValue h v).2 = some v
  | .str s, h, e, fuel, hle => by
      obtain ⟨f, rfl⟩ : ∃ f, fuel = f + 1 := by
        cases fuel with
        | zero => simp [vDepth] at hle
        | succ f => exact ⟨f, rfl⟩
      show readValue (h ++ [.hstr s] ++ e) (f + 1) h.length = some (.str s)
      simp only [readValue, getElem_concat_mid]
  | .num n, h, e, fuel, hle => by
      obtain ⟨f, rfl⟩ : ∃ f, fuel = f + 1 := by
        cases fuel with
        | zero => simp [vDepth] at hle
        | succ f => exact ⟨f, rfl⟩
      show readValue (h ++ [.hnum n] ++ e) (f + 1) h.length = some (.num n)
      simp only [readValue, getElem_concat_mid]
  | .bool b, h, e, fuel, hle => by
      obtain ⟨f, rfl⟩ : ∃ f, fuel = f + 1 := by
        cases fuel with
        | zero => simp [vDepth] at hle
        | succ f => exact ⟨f, rfl⟩
      show readValue (h ++ [.hbool b] ++ e) (f + 1) h.length = some (.bool b)
      simp only [readValue, getElem_concat_mid]
  | .null, h, e, fuel, hle => by
      obtain ⟨f, rfl⟩ : ∃ f, fuel = f + 1 := by
        cases fuel with
        | zero => simp [vDepth] at hle
        | succ f => exact ⟨f, rfl⟩
      show readValue (h ++ [.hnull] ++ e) (f + 1) h.length = some .null
      simp only [readValue, getElem_concat_mid]
  | .obj fs, h, e, fuel, hle => by
      obtain ⟨f, rfl⟩ : ∃ f, fuel = f + 1 := by
        cases fuel with
        | zero => simp [vDepth] at hle
        | succ f => exact ⟨f, rfl⟩
      have hf : fieldsDepth fs ≤ f := by
        simp only [vDepth] at hle
        omega
      show readValue ((allocFields h fs).1 ++ [.hobj (allocFields h fs).2]
        ++ e) (f + 1) (allocFields h fs).1.length = some (.obj fs)
      simp only [readValue, getElem_concat_mid]
      have hrd := allocFields_read fs h ([.hobj (allocFields h fs).2] ++ e)
        f hf
      rw [← List.append_assoc] at hrd
      rw [hrd]
      rfl
  | .arr xs, h, e, fuel, hle => by
      obtain ⟨f, rfl⟩ : ∃ f, fuel = f + 1 := by
        cases fuel with
        | zero => simp [vDepth] at hle
        | succ f => exact ⟨f, rfl⟩
      have hf : elemsDepth xs ≤ f := by
        simp only [vDepth] at hle
        omega
      show readValue ((allocElems h xs).1 ++ [.harr (allocElems h xs).2]
        ++ e) (f + 1) (allocElems h xs).1.length = some (.arr xs)
      simp only [readValue, getElem_concat_mid]
      have hrd := allocElems_read xs h ([.harr (allocElems h xs).2] ++ e)
        f hf
      rw [← List.append_assoc] at hrd
      rw [hrd]
      rfl

theorem allocFields_read : ∀ (fs : VFields) (h e : Heap) (fuel : Nat),
    fieldsDepth fs ≤ fuel →
    readFieldsWith (readValue ((allocFields h fs).1 ++ e) fuel)
      (allocFields h fs).2 = some fs
  | .fnil, h, e, fuel, _ => by simp [allocFields, readFieldsWith]
  | .fcons k v rest, h, e, fuel, hle => by
      have hdv : vDepth v ≤ fuel :=
        le_trans (le_max_left _ _) (by simpa [fieldsDepth] using hle)
      have hdr : fieldsDepth rest ≤ fuel :=
        le_trans (le_max_right _ _) (by simpa [fieldsDepth] using hle)
      obtain ⟨e2, he2⟩ := allocFields_prefix rest (allocValue h v).1
      have hv : readValue ((allocValue h v).1 ++ (e2 ++ e)) fuel
          (allocValue h v).2 = some v := allocValue_read v h (e2 ++ e)
        fuel hdv
      have hv2 : readValue ((allocFields (allocValue h v).1 rest).1 ++ e)
          fuel (allocValue h v).2 = some v := by
        rw [he2, List.append_assoc]
        exact hv
      have hrest := allocFields_read rest (allocValue h v).1 e fuel hdr
      show readFieldsWith (readValue ((allocFields (allocValue h v).1
          rest).1 ++ e) fuel)
        ((k, (allocValue h v).2) :: (allocFields (allocValue h v).1 rest).2)
        = some (.fcons k v rest)
      simp only [readFieldsWith, hv2, hrest]

theorem allocElems_read : ∀ (xs : VList) (h e : Heap) (fuel : Nat),
    elemsDepth xs ≤ fuel →
    readElemsWith (readValue ((allocElems h xs).1 ++ e) fuel)
      (allocElems h xs).2 = some xs
  | .vnil, h, e, fuel, _ => by simp [allocElems, readElemsWith]
  | .vcons v rest, h, e, fuel, hle => by
      have hdv : vDepth v ≤ fuel :=
        le_trans (le_max_left _ _) (by simpa [elemsDepth] using hle)
      have hdr : elemsDepth rest ≤ fuel :=
        le_trans (le_max_right _ _) (by simpa [elemsDepth] using hle)
      obtain ⟨e2, he2⟩ := allocElems_prefix rest (allocValue h v).1
      have hv : readValue ((allocValue h v).1 ++ (e2 ++ e)) fuel
          (allocValue h v).2 = some v := allocValue_read v h (e2 ++ e)
        fuel hdv
      have hv2 : readValue ((allocElems (allocValue h v).1 rest).1 ++ e)
          fuel (allocValue h v).2 = some v := by
        rw [he2, List.append_assoc]
        exact hv
      have hrest := allocElems_read rest (allocValue h v).1 e fuel hdr
      show readElemsWith (readValue ((allocElems (allocValue h v).1
          rest).1 ++ e) fuel)
        ((allocValue h v).2 :: (allocElems (allocValue h v).1 rest).2)
        = some (.vcons v rest)
      simp only [readElemsWith, hv2, hrest]
end

theorem set_append_high : ∀ (h e : List HVal) (c : Nat) (w : HVal),
    h.length ≤ c → (h ++ e).set c w = h ++ e.set (c - h.length) w
  | [], e, c, w, _ => by simp
  | x :: h, e, c, w, hc => by
      cases c with
      | zero => simp at hc
      | succ c2 =>
          show x :: (h ++ e).set c2 w =
            x :: (h ++ e.set (c2 + 1 - (h.length + 1)) w)
          have harith : c2 + 1 - (h.length + 1) = c2 - h.length := by omega
          rw [set_append_high h e c2 w (Nat.le_of_succ_le_succ hc), harith]

theorem mutateAll_append_high (h : Heap) :
    ∀ (us : List (Nat × HVal)) (e : Heap),
    (∀ u ∈ us, h.length ≤ u.1) → ∃ e2, mutateAll (h ++ e) us = h ++ e2
  | [], e, _ => ⟨e, rfl⟩
  | u :: rest, e, hus => by
      have hu : h.length ≤ u.1 := hus u (by simp)
      have hrest : ∀ w ∈ rest, h.length ≤ w.1 := fun w hw =>
        hus w (List.mem_cons_of_mem u hw)
      show ∃ e2, mutateAll ((h ++ e).set u.1 u.2) rest = h ++ e2
      rw [set_append_high h e u.1 u.2 hu]
      exact mutateAll_append_high h rest (e.set (u.1 - h.length) u.2) hrest

/-- Claim C5: deep-copy isolation of `processTemplate`.  In the
object-graph model of the JSON round trip (line 257), copying a template
value readable at address `a` allocates only fresh cells, so: the copy
reads back as the same value; any sequence of in-place mutations
confined to the fresh region (which contains every address of the
returned event object) leaves the registry's stored template readable
unchanged; and an event generated later from the re-read template is the
same value `processTemplate` would have produced before the mutations. -/
theorem c5_deep_copy_isolation (h : Heap) (a fuel : Nat) (v : Val)
    (us : List (Nat × HVal))
    (hv : readValue h fuel a = some v)
    (hus : ∀ u ∈ us, h.length ≤ u.1) :
    readValue (mutateAll (allocValue h v).1 us) fuel a = some v ∧
    readValue (allocValue h v).1 (vDepth v) (allocValue h v).2 = some v ∧
    (∀ vars, (readValue (mutateAll (allocValue h v).1 us) fuel a).map
      (fun t => processTemplate t vars) = some (processTemplate v vars)) := by
  obtain ⟨e0, he0⟩ := allocValue_prefix v h
  have h1 : readValue (mutateAll (allocValue h v).1 us) fuel a = some v := by
    rw [he0]
    obtain ⟨e2, he2⟩ := mutateAll_append_high h us e0 hus
    rw [he2]
    exact readValue_append h e2 fuel a v hv
  refine ⟨h1, ?_, fun vars => by rw [h1]; rfl⟩
  have := allocValue_read v h [] (vDepth v) (le_refl _)
  simpa using this

/-- Witness for C5 at a concrete input: a template allocated on an empty
heap, then mutated at the first address of the copy region. -/
theorem c5_deep_copy_isolation_witness :
    readValue (mutateAll (allocValue
        (allocValue [] (.obj (vf [("text", .str "hi \x7b\x7bm\x7d\x7d")]))).1
        (.obj (vf [("text", .str "hi \x7b\x7bm\x7d\x7d")]))).1
        [((allocValue [] (.obj (vf
            [("text", .str "hi \x7b\x7bm\x7d\x7d")]))).1.length,
          .hstr "mutated")])
      (vDepth (.obj (vf [("text", .str "hi \x7b\x7bm\x7d\x7d")])))
      (allocValue [] (.obj (vf [("text", .str "hi \x7b\x7bm\x7d\x7d")]))).2 =
      some (.obj (vf [("text", .str "hi \x7b\x7bm\x7d\x7d")])) :=
  (c5_deep_copy_isolation
    (allocValue [] (.obj (vf [("text", .str "hi \x7b\x7bm\x7d\x7d")]))).1
    (allocValue [] (.obj (vf [("text", .str "hi \x7b\x7bm\x7d\x7d")]))).2
    (vDepth (.obj (vf [("text", .str "hi \x7b\x7bm\x7d\x7d")])))
    (.obj (vf [("text", .str "hi \x7b\x7bm\x7d\x7d")]))
    [((allocValue [] (.obj (vf
        [("text", .str "hi \x7b\x7bm\x7d\x7d")]))).1.length,
      .hstr "mutated")]
    (by decide) (by decide)).1
